import Mathlib

/-!
Verification development for the keyboard matrix debounce scanner
(src/Scan/MatrixARM/matrix_scan.c).

The embedding below translates the scanner's data model and the
`Matrix_setup` / `Matrix_scan` routines into pure Lean functions.
Machine integers are modelled as `Nat` with explicit reduction modulo
2^32 (for `Matrix_divCounter` and the tick difference) and modulo 2^16
(for the `uint16_t` running scan counter).  Hardware pin reads
(`Matrix_pin(..., Type_Sense)`) are abstracted as a per-key boolean
oracle, and the key-event sink `Macro_keyState` together with the
diagnostic `erro_print` are reified as data in the scan outcome
(a list of (key, state) events and an error count).  Printing-only
debug paths (`matrixDebugMode`, `matrixDebugStateCounter`) change no
scanner state and are omitted.
-/

/-- The `KeyPosition` enumeration of per-key states (matrix_scan.h);
the enumerators carry the `KeyState_` prefix exactly as in the C source. -/
inductive KeyPosition where
  | KeyState_Off
  | KeyState_Press
  | KeyState_Hold
  | KeyState_Release
  | KeyState_Invalid
deriving DecidableEq, Repr

/-- The per-key debounce record, named `KeyState` in the C source
(the element type of `Matrix_scanArray`).  Counters are `Nat`; the code
only ever increments them below the saturation threshold and halves
them, so no fixed-width wraparound can occur. -/
structure KeyState where
  prevState : KeyPosition
  curState : KeyPosition
  activeCount : Nat
  inactiveCount : Nat
  lastChangeCounter : Nat
deriving DecidableEq, Repr

/-- Modulus of the 32-bit unsigned counters (`uint32_t`). -/
def U32 : Nat := 4294967296

/-- Modulus of the 16-bit unsigned counters (`uint16_t`). -/
def U16 : Nat := 65536

/-- The repeat-suppression threshold, `Matrix_repeatThreshold = 16`
(matrix_scan.c line 53); no code in the module ever modifies it. -/
def Matrix_repeatThreshold : Nat := 16

/-- Count-leading-zeros of a 32-bit value, modelling
`__builtin_clzl(x)` on a 32-bit `long`.  For `x = 0` the C builtin is
undefined; the ARM `CLZ` instruction that implements it on the target
(Freescale MK20, a Cortex-M4) returns 32, which `Nat.size 0 = 0`
reproduces here. -/
def clzl32 (x : Nat) : Nat := 32 - Nat.size x

/-- The histogram bucket computation at matrix_scan.c line 348:
`uint8_t bucket = 31 - __builtin_clzl(diff);`.  The subtraction is
done in `int` and then truncated to `uint8_t`, hence the mod 256. -/
def Matrix_bucket (diff : Nat) : Nat := (31 + 256 - clzl32 diff) % 256

/-- The `uint32_t` subtraction `Matrix_divCounter - lastChangeCounter`
at matrix_scan.c line 344, for operands already reduced mod 2^32. -/
def diff32 (divCounter lastChange : Nat) : Nat :=
  (divCounter + U32 - lastChange) % U32

/-- Pass-boundary reset (matrix_scan.c lines 304-309): on the first
sub-scan of a pass (`scanNum == 0`) freeze the previous state and mark
the current state unresolved. -/
def keyReset (scanNum : Nat) (c : KeyState) : KeyState :=
  if scanNum = 0 then
    { c with prevState := c.curState, curState := KeyPosition.KeyState_Invalid }
  else c

/-- Saturating dual-counter update (matrix_scan.c lines 318-334):
increment the counter matching the sense sample unless it has reached
the threshold `T` (`DebounceDivThreshold_define`), and right-shift the
opposing counter. -/
def debounceSample (T : Nat) (sense : Bool) (c : KeyState) : KeyState :=
  if sense then
    { c with
      activeCount := if c.activeCount < T then c.activeCount + 1 else c.activeCount
      inactiveCount := c.inactiveCount / 2 }
  else
    { c with
      inactiveCount := if c.inactiveCount < T then c.inactiveCount + 1 else c.inactiveCount
      activeCount := c.activeCount / 2 }

/-- Outcome of the per-key body of the scan loop: the updated cell,
the histogram bucket incremented in `Matrix_timesRelease` (if any),
the bucket incremented in `Matrix_timesPress` (if any), the argument
of the `Macro_keyState` call (if it fires), and whether `erro_print`
was invoked. -/
structure SubScanResult where
  cell : KeyState
  releaseBucket : Option Nat
  pressBucket : Option Nat
  notified : Option KeyPosition
  errorReported : Bool
deriving DecidableEq, Repr

/-- State-resolution step (matrix_scan.c lines 340-415).  Runs only
while `curState` is `Invalid`; computes the tick difference and the
histogram bucket, suppresses resolution when the difference is below
the repeat threshold (lines 354-357), otherwise resolves the new state
from `prevState` (lines 359-393) and sends it to `Macro_keyState`
(line 396).  The `KeyState_Invalid` arm models the `default` arm of
the C switch: it prints the "Matrix scan bug" error and falls through
to the notify call without touching the cell. -/
def resolveCell (repeatThreshold divCounter : Nat) (c : KeyState) : SubScanResult :=
  if c.curState = KeyPosition.KeyState_Invalid then
    let diff := diff32 divCounter c.lastChangeCounter
    let bucket := Matrix_bucket diff
    if diff < repeatThreshold then
      ⟨{ c with curState := c.prevState }, none, none, none, false⟩
    else
      match c.prevState with
      | KeyPosition.KeyState_Press | KeyPosition.KeyState_Hold =>
        if c.activeCount > c.inactiveCount then
          ⟨{ c with curState := KeyPosition.KeyState_Hold },
            none, none, some KeyPosition.KeyState_Hold, false⟩
        else
          ⟨{ c with
              curState := KeyPosition.KeyState_Release
              lastChangeCounter := divCounter },
            some bucket, none, some KeyPosition.KeyState_Release, false⟩
      | KeyPosition.KeyState_Release | KeyPosition.KeyState_Off =>
        if c.activeCount > c.inactiveCount then
          ⟨{ c with
              curState := KeyPosition.KeyState_Press
              lastChangeCounter := divCounter },
            none, some bucket, some KeyPosition.KeyState_Press, false⟩
        else
          ⟨{ c with curState := KeyPosition.KeyState_Off },
            none, none, some KeyPosition.KeyState_Off, false⟩
      | KeyPosition.KeyState_Invalid =>
        ⟨c, none, none, some c.curState, true⟩
  else
    ⟨c, none, none, none, false⟩

/-- Full per-key body of the inner scan loop (matrix_scan.c lines
300-415): pass-boundary reset, then the debounce counter update on the
sense sample, then state resolution. -/
def subScanCell (T repeatThreshold divCounter scanNum : Nat) (sense : Bool)
    (c : KeyState) : SubScanResult :=
  resolveCell repeatThreshold divCounter (debounceSample T sense (keyReset scanNum c))

/-- Global mutable state of the module: `Matrix_divCounter`,
`Matrix_scanArray` (as a total function from key index to cell),
`Matrix_timesRelease` / `Matrix_timesPress` (as bucket-indexed
counters) and the three scan statistics counters. -/
structure MatrixState where
  divCounter : Nat
  scanArray : Nat → KeyState
  timesRelease : Nat → Nat
  timesPress : Nat → Nat
  matrixMaxScans : Nat
  matrixCurScans : Nat
  matrixPrevScans : Nat

/-- Result of one `Matrix_scan` invocation: the new global state, the
`Macro_keyState` calls it made (in loop order), and how many times it
hit the internal-error diagnostic. -/
structure ScanOutcome where
  state : MatrixState
  events : List (Nat × KeyPosition)
  errors : Nat

/-- Increment a histogram at the given bucket, if any. -/
def bumpHist (h : Nat → Nat) (o : Option Nat) : Nat → Nat :=
  match o with
  | none => h
  | some b => fun i => if i = b then h i + 1 else h i

/-- Key indices in the order the nested strobe/sense loops visit them
(matrix_scan.c lines 291-300): outer loop over strobes (columns),
inner loop over senses (rows), key = `Matrix_colsNum * sense + strobe`. -/
def scanKeys (colsNum rowsNum : Nat) : List Nat :=
  (List.range colsNum).flatMap
    (fun strobe => (List.range rowsNum).map (fun sense => colsNum * sense + strobe))

/-- One iteration of the inner scan loop, threading the accumulated
state, event list and error count through `subScanCell` for one key. -/
def stepKey (T repeatThreshold : Nat) (senseIn : Nat → Bool) (scanNum : Nat)
    (acc : ScanOutcome) (key : Nat) : ScanOutcome :=
  let s := acc.state
  let r := subScanCell T repeatThreshold s.divCounter scanNum (senseIn key) (s.scanArray key)
  { state := { s with
      scanArray := fun k => if k = key then r.cell else s.scanArray k
      timesRelease := bumpHist s.timesRelease r.releaseBucket
      timesPress := bumpHist s.timesPress r.pressBucket }
    events := acc.events ++ (match r.notified with
      | none => []
      | some st => [(key, st)])
    errors := acc.errors + (if r.errorReported then 1 else 0) }

/-- Throttle test (matrix_scan.c lines 267-274): with a positive
compile-time `DebounceThrottleDiv_define`, the pass is skipped when
bit `throttleDiv - 1` of the already-incremented `Matrix_divCounter`
is clear. -/
def throttleSkip (throttleDiv newDivCounter : Nat) : Bool :=
  decide (0 < throttleDiv) && decide (newDivCounter &&& (1 <<< (throttleDiv - 1)) = 0)

/-- The `Matrix_scan` routine (matrix_scan.c lines 263-465).
Increments `Matrix_divCounter` (mod 2^32), applies the optional
throttle, updates the scan statistics counters, then runs the per-key
debounce update over every (strobe, sense) position.  The per-key
sense samples are supplied by the oracle `senseIn`; strobe on/off pin
writes have no modelled effect beyond selecting which sample is read. -/
def Matrix_scan (colsNum rowsNum T throttleDiv : Nat) (senseIn : Nat → Bool)
    (scanNum : Nat) (s : MatrixState) : ScanOutcome :=
  let s1 := { s with divCounter := (s.divCounter + 1) % U32 }
  if throttleSkip throttleDiv s1.divCounter then
    ⟨s1, [], 0⟩
  else
    let s2 := { s1 with
      matrixMaxScans := if scanNum > s1.matrixMaxScans then scanNum else s1.matrixMaxScans }
    let s3 :=
      if scanNum = 0 then
        { s2 with
          matrixPrevScans := s2.matrixCurScans
          matrixCurScans := 0 }
      else
        { s2 with matrixCurScans := (s2.matrixCurScans + 1) % U16 }
    (scanKeys colsNum rowsNum).foldl (stepKey T Matrix_repeatThreshold senseIn scanNum)
      ⟨s3, [], 0⟩

/-- A freshly cleared debounce cell (matrix_scan.c lines 214-218):
both states `Off`, `activeCount = 0`, `inactiveCount` at the threshold
(steady off), `lastChangeCounter = 0`. -/
def initKeyState (T : Nat) : KeyState :=
  ⟨KeyPosition.KeyState_Off, KeyPosition.KeyState_Off, 0, T, 0⟩

/-- The state-mutating part of `Matrix_setup` (matrix_scan.c lines
211-229): clears every debounce cell and both histograms, and resets
`matrixMaxScans` and `matrixPrevScans`.  Faithful to the source, it
touches neither `Matrix_divCounter` nor `matrixCurScans`. -/
def Matrix_setup (T : Nat) (s : MatrixState) : MatrixState :=
  { s with
    scanArray := fun _ => initKeyState T
    matrixMaxScans := 0
    matrixPrevScans := 0
    timesRelease := fun _ => 0
    timesPress := fun _ => 0 }

/-- Run a sequence of `Matrix_scan` invocations, each given by its
`scanNum` and its per-key sense oracle, collecting all
`Macro_keyState` events in order. -/
def runScans (colsNum rowsNum T throttleDiv : Nat)
    (inputs : List (Nat × (Nat → Bool))) (s : MatrixState) :
    MatrixState × List (Nat × KeyPosition) :=
  match inputs with
  | [] => (s, [])
  | (n, f) :: rest =>
    let o := Matrix_scan colsNum rowsNum T throttleDiv f n s
    let r := runScans colsNum rowsNum T throttleDiv rest o.state
    (r.1, o.events ++ r.2)

/-- A cell is well formed when neither of its recorded states is the
transient `Invalid` marker; this holds at the boundaries between
sub-scans for every cell reachable from `Matrix_setup`. -/
def cellOK (c : KeyState) : Prop :=
  c.prevState ≠ KeyPosition.KeyState_Invalid ∧
    c.curState ≠ KeyPosition.KeyState_Invalid

instance (c : KeyState) : Decidable (cellOK c) := by
  unfold cellOK; infer_instance

/-- All cells of the global state are well formed. -/
def stateOK (s : MatrixState) : Prop := ∀ k, cellOK (s.scanArray k)

/-! ### Arithmetic facts about the histogram bucket computation -/

lemma size_eq_log2_add_one {d : Nat} (h : 1 ≤ d) : Nat.size d = Nat.log2 d + 1 := by
  have hd : d ≠ 0 := by omega
  apply le_antisymm
  · exact Nat.size_le.2 ((Nat.log2_lt hd).1 (Nat.lt_succ_self _))
  · exact Nat.lt_size.2 ((Nat.le_log2 hd).1 le_rfl)

lemma U32_eq : U32 = 2 ^ 32 := by norm_num [U32]

lemma Matrix_bucket_eq_log2 {d : Nat} (h1 : 1 ≤ d) (h2 : d < U32) :
    Matrix_bucket d = Nat.log2 d := by
  have hs : Nat.size d = Nat.log2 d + 1 := size_eq_log2_add_one h1
  have hle : Nat.size d ≤ 32 := Nat.size_le.2 (by rw [← U32_eq]; exact h2)
  have hpos : 0 < Nat.size d := Nat.size_pos.2 (by omega)
  unfold Matrix_bucket clzl32
  omega

lemma log2_le_31 {d : Nat} (h2 : d < U32) : Nat.log2 d ≤ 31 := by
  rcases Nat.eq_zero_or_pos d with h | h
  · simp [h, Nat.log2]
  · have hd : d ≠ 0 := by omega
    have := (Nat.log2_lt hd).2 (by rw [← U32_eq]; exact h2)
    omega

lemma Matrix_bucket_zero : Matrix_bucket 0 = 255 := by
  unfold Matrix_bucket clzl32
  norm_num [Nat.size_zero]

lemma four_le_log2 {d : Nat} (h : 16 ≤ d) : 4 ≤ Nat.log2 d := by
  have hd : d ≠ 0 := by omega
  exact (Nat.le_log2 hd).2 (by norm_num; omega)

lemma diff32_lt (a b : Nat) : diff32 a b < U32 := by
  unfold diff32
  exact Nat.mod_lt _ (by norm_num [U32])

/-! ### Case lemmas for the state-resolution step -/

lemma resolveCell_skip {c : KeyState} (rT dC : Nat)
    (h : c.curState ≠ KeyPosition.KeyState_Invalid) :
    resolveCell rT dC c = ⟨c, none, none, none, false⟩ := by
  simp [resolveCell, h]

lemma resolveCell_suppress {c : KeyState} (rT dC : Nat)
    (hc : c.curState = KeyPosition.KeyState_Invalid)
    (hlt : diff32 dC c.lastChangeCounter < rT) :
    resolveCell rT dC c =
      ⟨{ c with curState := c.prevState }, none, none, none, false⟩ := by
  simp [resolveCell, hc, hlt]

lemma resolveCell_hold {c : KeyState} (rT dC : Nat)
    (hc : c.curState = KeyPosition.KeyState_Invalid)
    (hge : ¬ diff32 dC c.lastChangeCounter < rT)
    (hp : c.prevState = KeyPosition.KeyState_Press ∨
      c.prevState = KeyPosition.KeyState_Hold)
    (hcnt : c.activeCount > c.inactiveCount) :
    resolveCell rT dC c =
      ⟨{ c with curState := KeyPosition.KeyState_Hold },
        none, none, some KeyPosition.KeyState_Hold, false⟩ := by
  rcases hp with hp | hp <;> simp [resolveCell, hc, hge, hp, hcnt]

lemma resolveCell_release {c : KeyState} (rT dC : Nat)
    (hc : c.curState = KeyPosition.KeyState_Invalid)
    (hge : ¬ diff32 dC c.lastChangeCounter < rT)
    (hp : c.prevState = KeyPosition.KeyState_Press ∨
      c.prevState = KeyPosition.KeyState_Hold)
    (hcnt : ¬ c.activeCount > c.inactiveCount) :
    resolveCell rT dC c =
      ⟨{ c with
          curState := KeyPosition.KeyState_Release
          lastChangeCounter := dC },
        some (Matrix_bucket (diff32 dC c.lastChangeCounter)), none,
        some KeyPosition.KeyState_Release, false⟩ := by
  rcases hp with hp | hp <;> simp [resolveCell, hc, hge, hp, hcnt]

lemma resolveCell_press {c : KeyState} (rT dC : Nat)
    (hc : c.curState = KeyPosition.KeyState_Invalid)
    (hge : ¬ diff32 dC c.lastChangeCounter < rT)
    (hp : c.prevState = KeyPosition.KeyState_Release ∨
      c.prevState = KeyPosition.KeyState_Off)
    (hcnt : c.activeCount > c.inactiveCount) :
    resolveCell rT dC c =
      ⟨{ c with
          curState := KeyPosition.KeyState_Press
          lastChangeCounter := dC },
        none, some (Matrix_bucket (diff32 dC c.lastChangeCounter)),
        some KeyPosition.KeyState_Press, false⟩ := by
  rcases hp with hp | hp <;> simp [resolveCell, hc, hge, hp, hcnt]

lemma resolveCell_off {c : KeyState} (rT dC : Nat)
    (hc : c.curState = KeyPosition.KeyState_Invalid)
    (hge : ¬ diff32 dC c.lastChangeCounter < rT)
    (hp : c.prevState = KeyPosition.KeyState_Release ∨
      c.prevState = KeyPosition.KeyState_Off)
    (hcnt : ¬ c.activeCount > c.inactiveCount) :
    resolveCell rT dC c =
      ⟨{ c with curState := KeyPosition.KeyState_Off },
        none, none, some KeyPosition.KeyState_Off, false⟩ := by
  rcases hp with hp | hp <;> simp [resolveCell, hc, hge, hp, hcnt]

lemma resolveCell_invalid_prev {c : KeyState} (rT dC : Nat)
    (hc : c.curState = KeyPosition.KeyState_Invalid)
    (hge : ¬ diff32 dC c.lastChangeCounter < rT)
    (hp : c.prevState = KeyPosition.KeyState_Invalid) :
    resolveCell rT dC c =
      ⟨c, none, none, some KeyPosition.KeyState_Invalid, true⟩ := by
  simp [resolveCell, hc, hge, hp]

/-! ### Per-cell invariants -/

lemma debounceSample_states (T : Nat) (sense : Bool) (c : KeyState) :
    (debounceSample T sense c).prevState = c.prevState ∧
    (debounceSample T sense c).curState = c.curState ∧
    (debounceSample T sense c).lastChangeCounter = c.lastChangeCounter := by
  cases sense <;> simp [debounceSample]

lemma debounceSample_counts {T : Nat} {c : KeyState} (sense : Bool)
    (ha : c.activeCount ≤ T) (hi : c.inactiveCount ≤ T) :
    (debounceSample T sense c).activeCount ≤ T ∧
    (debounceSample T sense c).inactiveCount ≤ T := by
  cases sense <;> constructor <;> simp [debounceSample] <;>
    first
    | (split_ifs <;> omega)
    | omega

lemma resolveCell_counts (rT dC : Nat) (c : KeyState) :
    (resolveCell rT dC c).cell.activeCount = c.activeCount ∧
    (resolveCell rT dC c).cell.inactiveCount = c.inactiveCount := by
  rcases c with ⟨p, q, a, i, l⟩
  cases p <;> cases q <;>
    simp only [resolveCell] <;> split_ifs <;> simp

lemma keyReset_counts (n : Nat) (c : KeyState) :
    (keyReset n c).activeCount = c.activeCount ∧
    (keyReset n c).inactiveCount = c.inactiveCount ∧
    (keyReset n c).lastChangeCounter = c.lastChangeCounter := by
  unfold keyReset; split_ifs <;> simp

lemma subScanCell_counts {T : Nat} (rT dC n : Nat) (sense : Bool) {c : KeyState}
    (ha : c.activeCount ≤ T) (hi : c.inactiveCount ≤ T) :
    (subScanCell T rT dC n sense c).cell.activeCount ≤ T ∧
    (subScanCell T rT dC n sense c).cell.inactiveCount ≤ T := by
  unfold subScanCell
  have hk := keyReset_counts n c
  have hd := debounceSample_counts (T := T) (c := keyReset n c) sense
    (by omega) (by omega)
  have hr := resolveCell_counts rT dC (debounceSample T sense (keyReset n c))
  omega

lemma subScanCell_OK {c : KeyState} (T rT dC n : Nat) (sense : Bool)
    (h : cellOK c) :
    cellOK (subScanCell T rT dC n sense c).cell ∧
    ∀ st, (subScanCell T rT dC n sense c).notified = some st →
      st ≠ KeyPosition.KeyState_Invalid := by
  unfold subScanCell
  set c2 := debounceSample T sense (keyReset n c) with hc2
  have hprev : c2.prevState ≠ KeyPosition.KeyState_Invalid := by
    have hs := debounceSample_states T sense (keyReset n c)
    rw [hc2, hs.1]
    unfold keyReset
    split_ifs <;> simp [h.1, h.2]
  by_cases hcur : c2.curState = KeyPosition.KeyState_Invalid
  · by_cases hlt : diff32 dC c2.lastChangeCounter < rT
    · rw [resolveCell_suppress rT dC hcur hlt]
      exact ⟨⟨hprev, hprev⟩, by simp⟩
    · by_cases hcnt : c2.activeCount > c2.inactiveCount
      · rcases hp : c2.prevState with _ | _ | _ | _ | _
        · rw [resolveCell_press rT dC hcur hlt (Or.inr hp) hcnt]
          exact ⟨⟨by simp [hp] at hprev ⊢, by simp⟩, by simp⟩
        · rw [resolveCell_hold rT dC hcur hlt (Or.inl hp) hcnt]
          exact ⟨⟨by simp [hp] at hprev ⊢, by simp⟩, by simp⟩
        · rw [resolveCell_hold rT dC hcur hlt (Or.inr hp) hcnt]
          exact ⟨⟨by simp [hp] at hprev ⊢, by simp⟩, by simp⟩
        · rw [resolveCell_press rT dC hcur hlt (Or.inl hp) hcnt]
          exact ⟨⟨by simp [hp] at hprev ⊢, by simp⟩, by simp⟩
        · exact absurd hp hprev
      · rcases hp : c2.prevState with _ | _ | _ | _ | _
        · rw [resolveCell_off rT dC hcur hlt (Or.inr hp) hcnt]
          exact ⟨⟨by simp [hp] at hprev ⊢, by simp⟩, by simp⟩
        · rw [resolveCell_release rT dC hcur hlt (Or.inl hp) hcnt]
          exact ⟨⟨by simp [hp] at hprev ⊢, by simp⟩, by simp⟩
        · rw [resolveCell_release rT dC hcur hlt (Or.inr hp) hcnt]
          exact ⟨⟨by simp [hp] at hprev ⊢, by simp⟩, by simp⟩
        · rw [resolveCell_off rT dC hcur hlt (Or.inl hp) hcnt]
          exact ⟨⟨by simp [hp] at hprev ⊢, by simp⟩, by simp⟩
        · exact absurd hp hprev
  · rw [resolveCell_skip rT dC hcur]
    exact ⟨⟨hprev, hcur⟩, by simp⟩

lemma subScanCell_no_notify {c : KeyState} (T rT dC : Nat) {n : Nat} (sense : Bool)
    (hn : n ≠ 0) (hcur : c.curState ≠ KeyPosition.KeyState_Invalid) :
    subScanCell T rT dC n sense c =
      ⟨debounceSample T sense c, none, none, none, false⟩ := by
  unfold subScanCell keyReset
  rw [if_neg hn]
  have hs := debounceSample_states T sense c
  rw [resolveCell_skip rT dC (by rw [hs.2.1]; exact hcur)]

lemma resolveCell_bucket_inv {c : KeyState} (rT dC b : Nat)
    (h : (resolveCell rT dC c).releaseBucket = some b ∨
      (resolveCell rT dC c).pressBucket = some b) :
    b = Matrix_bucket (diff32 dC c.lastChangeCounter) ∧
      ¬ diff32 dC c.lastChangeCounter < rT := by
  by_cases hcur : c.curState = KeyPosition.KeyState_Invalid
  · by_cases hlt : diff32 dC c.lastChangeCounter < rT
    · rw [resolveCell_suppress rT dC hcur hlt] at h
      simp at h
    · refine ⟨?_, hlt⟩
      by_cases hcnt : c.activeCount > c.inactiveCount
      · rcases hp : c.prevState with _ | _ | _ | _ | _
        · rw [resolveCell_press rT dC hcur hlt (Or.inr hp) hcnt] at h
          simp at h; omega
        · rw [resolveCell_hold rT dC hcur hlt (Or.inl hp) hcnt] at h
          simp at h
        · rw [resolveCell_hold rT dC hcur hlt (Or.inr hp) hcnt] at h
          simp at h
        · rw [resolveCell_press rT dC hcur hlt (Or.inl hp) hcnt] at h
          simp at h; omega
        · rw [resolveCell_invalid_prev rT dC hcur hlt hp] at h
          simp at h
      · rcases hp : c.prevState with _ | _ | _ | _ | _
        · rw [resolveCell_off rT dC hcur hlt (Or.inr hp) hcnt] at h
          simp at h
        · rw [resolveCell_release rT dC hcur hlt (Or.inl hp) hcnt] at h
          simp at h; omega
        · rw [resolveCell_release rT dC hcur hlt (Or.inr hp) hcnt] at h
          simp at h; omega
        · rw [resolveCell_off rT dC hcur hlt (Or.inl hp) hcnt] at h
          simp at h
        · rw [resolveCell_invalid_prev rT dC hcur hlt hp] at h
          simp at h
  · rw [resolveCell_skip rT dC hcur] at h
    simp at h

lemma subScanCell_bucket_ge {c : KeyState} {rT : Nat} (T dC n : Nat) (sense : Bool)
    (b : Nat) (hrT : 16 ≤ rT)
    (h : (subScanCell T rT dC n sense c).releaseBucket = some b ∨
      (subScanCell T rT dC n sense c).pressBucket = some b) :
    4 ≤ b := by
  unfold subScanCell at h
  have hinv := resolveCell_bucket_inv rT dC b h
  have hdiff : 16 ≤ diff32 dC (debounceSample T sense (keyReset n c)).lastChangeCounter := by
    omega
  rw [hinv.1, Matrix_bucket_eq_log2 (by omega) (diff32_lt _ _)]
  exact four_le_log2 hdiff

/-! ### Properties of the inner scan loop fold -/

lemma foldl_stepKey_stats (T rT : Nat) (f : Nat → Bool) (n : Nat)
    (L : List Nat) (acc : ScanOutcome) :
    (L.foldl (stepKey T rT f n) acc).state.divCounter = acc.state.divCounter ∧
    (L.foldl (stepKey T rT f n) acc).state.matrixMaxScans = acc.state.matrixMaxScans ∧
    (L.foldl (stepKey T rT f n) acc).state.matrixCurScans = acc.state.matrixCurScans ∧
    (L.foldl (stepKey T rT f n) acc).state.matrixPrevScans = acc.state.matrixPrevScans := by
  induction L generalizing acc with
  | nil => simp
  | cons j L ih =>
    rw [List.foldl_cons]
    have h := ih (stepKey T rT f n acc j)
    simpa [stepKey] using h

lemma foldl_stepKey_cellPred (T rT : Nat) (f : Nat → Bool) (n : Nat)
    (P : KeyState → Prop)
    (hP : ∀ dC sense c, P c → P ((subScanCell T rT dC n sense c).cell))
    (L : List Nat) (acc : ScanOutcome)
    (hacc : ∀ k, P (acc.state.scanArray k)) (k : Nat) :
    P ((L.foldl (stepKey T rT f n) acc).state.scanArray k) := by
  induction L generalizing acc with
  | nil => simpa using hacc k
  | cons j L ih =>
    rw [List.foldl_cons]
    refine ih (stepKey T rT f n acc j) ?_
    intro k2
    by_cases hk : k2 = j
    · simpa [stepKey, hk] using hP _ _ _ (hacc j)
    · simpa [stepKey, hk] using hacc k2

lemma foldl_stepKey_events (T rT : Nat) (f : Nat → Bool) (n : Nat)
    (L : List Nat) (acc : ScanOutcome)
    (hacc : ∀ k, cellOK (acc.state.scanArray k)) :
    ∃ t, (L.foldl (stepKey T rT f n) acc).events = acc.events ++ t ∧
      (t.map Prod.fst).Sublist L ∧
      ∀ e ∈ t, e.2 ≠ KeyPosition.KeyState_Invalid := by
  induction L generalizing acc with
  | nil => exact ⟨[], by simp, List.nil_sublist _, by simp⟩
  | cons j L ih =>
    rw [List.foldl_cons]
    have haccOK : ∀ k, cellOK ((stepKey T rT f n acc j).state.scanArray k) := by
      intro k2
      by_cases hk : k2 = j
      · simpa [stepKey, hk] using
          (subScanCell_OK T rT acc.state.divCounter n (f j) (hacc j)).1
      · simpa [stepKey, hk] using hacc k2
    obtain ⟨t, ht, hsub, hok⟩ := ih (stepKey T rT f n acc j) haccOK
    have hnot := (subScanCell_OK T rT acc.state.divCounter n (f j) (hacc j)).2
    rcases hr : (subScanCell T rT acc.state.divCounter n (f j)
        (acc.state.scanArray j)).notified with _ | st
    · refine ⟨t, ?_, hsub.cons j, hok⟩
      rw [ht]
      simp [stepKey, hr]
    · refine ⟨(j, st) :: t, ?_, ?_, ?_⟩
      · rw [ht]
        simp [stepKey, hr]
      · simpa using hsub.cons₂ j
      · intro e he
        rcases List.mem_cons.1 he with he | he
        · subst he; exact hnot st hr
        · exact hok e he

lemma foldl_stepKey_no_events (T rT : Nat) (f : Nat → Bool) {n : Nat} (hn : n ≠ 0)
    (L : List Nat) (acc : ScanOutcome)
    (hacc : ∀ k, cellOK (acc.state.scanArray k)) :
    (L.foldl (stepKey T rT f n) acc).events = acc.events := by
  induction L generalizing acc with
  | nil => simp
  | cons j L ih =>
    rw [List.foldl_cons]
    have haccOK : ∀ k, cellOK ((stepKey T rT f n acc j).state.scanArray k) := by
      intro k2
      by_cases hk : k2 = j
      · simpa [stepKey, hk] using
          (subScanCell_OK T rT acc.state.divCounter n (f j) (hacc j)).1
      · simpa [stepKey, hk] using hacc k2
    rw [ih (stepKey T rT f n acc j) haccOK]
    have hno := subScanCell_no_notify T rT acc.state.divCounter (f j) hn (hacc j).2
    simp [stepKey, hno]

lemma foldl_stepKey_hist_low (T : Nat) {rT : Nat} (hrT : 16 ≤ rT)
    (f : Nat → Bool) (n : Nat) (L : List Nat) (acc : ScanOutcome)
    {b : Nat} (hb : b < 4) :
    (L.foldl (stepKey T rT f n) acc).state.timesPress b = acc.state.timesPress b ∧
    (L.foldl (stepKey T rT f n) acc).state.timesRelease b = acc.state.timesRelease b := by
  induction L generalizing acc with
  | nil => simp
  | cons j L ih =>
    rw [List.foldl_cons]
    have h := ih (stepKey T rT f n acc j)
    refine ⟨h.1.trans ?_, h.2.trans ?_⟩
    · simp only [stepKey]
      rcases hr : (subScanCell T rT acc.state.divCounter n (f j)
          (acc.state.scanArray j)).pressBucket with _ | bk
      · simp [bumpHist, hr]
      · have h4 : 4 ≤ bk :=
          subScanCell_bucket_ge T acc.state.divCounter n (f j) bk hrT (Or.inr hr)
        simp [bumpHist, hr]
        intro heq
        omega
    · simp only [stepKey]
      rcases hr : (subScanCell T rT acc.state.divCounter n (f j)
          (acc.state.scanArray j)).releaseBucket with _ | bk
      · simp [bumpHist, hr]
      · have h4 : 4 ≤ bk :=
          subScanCell_bucket_ge T acc.state.divCounter n (f j) bk hrT (Or.inl hr)
        simp [bumpHist, hr]
        intro heq
        omega


lemma scanKeys_nodup (colsNum rowsNum : Nat) : (scanKeys colsNum rowsNum).Nodup := by
  unfold scanKeys
  rw [List.nodup_flatMap]
  constructor
  · intro strobe hs
    have hcols : 0 < colsNum := by
      have := List.mem_range.1 hs
      omega
    refine List.Nodup.map ?_ (List.nodup_range rowsNum)
    intro r1 r2 hr
    have hr2 : colsNum * r1 + strobe = colsNum * r2 + strobe := hr
    exact Nat.eq_of_mul_eq_mul_left hcols (by omega)
  · refine (List.pairwise_lt_range colsNum).imp_of_mem ?_
    intro s1 s2 h1 h2 hlt x hx1 hx2
    have hs1 : s1 < colsNum := List.mem_range.1 h1
    have hs2 : s2 < colsNum := List.mem_range.1 h2
    obtain ⟨r1, _, hx1⟩ := List.mem_map.1 hx1
    obtain ⟨r2, _, hx2⟩ := List.mem_map.1 hx2
    have hm1 : x % colsNum = s1 := by
      rw [← hx1, Nat.add_comm, Nat.add_mul_mod_self_left]
      exact Nat.mod_eq_of_lt hs1
    have hm2 : x % colsNum = s2 := by
      rw [← hx2, Nat.add_comm, Nat.add_mul_mod_self_left]
      exact Nat.mod_eq_of_lt hs2
    omega

/-! ### Invocation-level properties of Matrix_scan -/

lemma Matrix_scan_eq (colsNum rowsNum T tD : Nat) (f : Nat → Bool) (n : Nat)
    (s : MatrixState) :
    Matrix_scan colsNum rowsNum T tD f n s =
      if throttleSkip tD ((s.divCounter + 1) % U32) then
        ⟨{ s with divCounter := (s.divCounter + 1) % U32 }, [], 0⟩
      else
        (scanKeys colsNum rowsNum).foldl (stepKey T Matrix_repeatThreshold f n)
          ⟨{ s with
              divCounter := (s.divCounter + 1) % U32
              matrixMaxScans := if n > s.matrixMaxScans then n else s.matrixMaxScans
              matrixCurScans := if n = 0 then 0 else (s.matrixCurScans + 1) % U16
              matrixPrevScans := if n = 0 then s.matrixCurScans else s.matrixPrevScans },
            [], 0⟩ := by
  unfold Matrix_scan
  by_cases h : throttleSkip tD ((s.divCounter + 1) % U32)
  · simp [h]
  · by_cases hn : n = 0 <;> simp [h, hn]

lemma Matrix_scan_divCounter (colsNum rowsNum T tD : Nat) (f : Nat → Bool)
    (n : Nat) (s : MatrixState) :
    (Matrix_scan colsNum rowsNum T tD f n s).state.divCounter =
      (s.divCounter + 1) % U32 := by
  rw [Matrix_scan_eq]
  by_cases h : throttleSkip tD ((s.divCounter + 1) % U32)
  · rw [if_pos h]
  · rw [if_neg h]
    exact (foldl_stepKey_stats T Matrix_repeatThreshold f n _ _).1

lemma Matrix_scan_OK (colsNum rowsNum T tD : Nat) (f : Nat → Bool)
    (n : Nat) {s : MatrixState} (h : stateOK s) :
    stateOK (Matrix_scan colsNum rowsNum T tD f n s).state := by
  rw [Matrix_scan_eq]
  by_cases hskip : throttleSkip tD ((s.divCounter + 1) % U32)
  · rw [if_pos hskip]; exact h
  · rw [if_neg hskip]
    exact fun k => foldl_stepKey_cellPred T Matrix_repeatThreshold f n cellOK
      (fun dC sense c hc => (subScanCell_OK T Matrix_repeatThreshold dC n sense hc).1)
      _ _ (fun k2 => h k2) k

lemma Matrix_scan_counts (colsNum rowsNum T tD : Nat) (f : Nat → Bool)
    (n : Nat) {s : MatrixState}
    (h : ∀ k, (s.scanArray k).activeCount ≤ T ∧ (s.scanArray k).inactiveCount ≤ T) :
    ∀ k, ((Matrix_scan colsNum rowsNum T tD f n s).state.scanArray k).activeCount ≤ T ∧
      ((Matrix_scan colsNum rowsNum T tD f n s).state.scanArray k).inactiveCount ≤ T := by
  rw [Matrix_scan_eq]
  by_cases hskip : throttleSkip tD ((s.divCounter + 1) % U32)
  · rw [if_pos hskip]; exact h
  · rw [if_neg hskip]
    exact fun k => foldl_stepKey_cellPred T Matrix_repeatThreshold f n
      (fun c => c.activeCount ≤ T ∧ c.inactiveCount ≤ T)
      (fun dC sense c hc => subScanCell_counts Matrix_repeatThreshold dC n sense hc.1 hc.2)
      _ _ (fun k2 => h k2) k

lemma Matrix_scan_events_OK (colsNum rowsNum T tD : Nat) (f : Nat → Bool)
    (n : Nat) {s : MatrixState} (h : stateOK s) :
    ∀ e ∈ (Matrix_scan colsNum rowsNum T tD f n s).events,
      e.2 ≠ KeyPosition.KeyState_Invalid := by
  rw [Matrix_scan_eq]
  by_cases hskip : throttleSkip tD ((s.divCounter + 1) % U32)
  · rw [if_pos hskip]; simp
  · rw [if_neg hskip]
    intro e he
    obtain ⟨t, ht, hsub, hok⟩ := foldl_stepKey_events T Matrix_repeatThreshold f n
      (scanKeys colsNum rowsNum)
      ⟨{ s with
          divCounter := (s.divCounter + 1) % U32
          matrixMaxScans := if n > s.matrixMaxScans then n else s.matrixMaxScans
          matrixCurScans := if n = 0 then 0 else (s.matrixCurScans + 1) % U16
          matrixPrevScans := if n = 0 then s.matrixCurScans else s.matrixPrevScans },
        [], 0⟩
      (fun k2 => h k2)
    rw [ht] at he
    simp at he
    exact hok e he

lemma Matrix_scan_events_keys (colsNum rowsNum T tD : Nat) (f : Nat → Bool)
    (n : Nat) {s : MatrixState} (h : stateOK s) :
    (((Matrix_scan colsNum rowsNum T tD f n s).events).map Prod.fst).Sublist
      (scanKeys colsNum rowsNum) := by
  rw [Matrix_scan_eq]
  by_cases hskip : throttleSkip tD ((s.divCounter + 1) % U32)
  · rw [if_pos hskip]; simp
  · rw [if_neg hskip]
    obtain ⟨t, ht, hsub, hok⟩ := foldl_stepKey_events T Matrix_repeatThreshold f n
      (scanKeys colsNum rowsNum)
      ⟨{ s with
          divCounter := (s.divCounter + 1) % U32
          matrixMaxScans := if n > s.matrixMaxScans then n else s.matrixMaxScans
          matrixCurScans := if n = 0 then 0 else (s.matrixCurScans + 1) % U16
          matrixPrevScans := if n = 0 then s.matrixCurScans else s.matrixPrevScans },
        [], 0⟩
      (fun k2 => h k2)
    rw [ht]
    simpa using hsub

lemma Matrix_scan_no_events (colsNum rowsNum T tD : Nat) (f : Nat → Bool)
    {n : Nat} (hn : n ≠ 0) {s : MatrixState} (h : stateOK s) :
    (Matrix_scan colsNum rowsNum T tD f n s).events = [] := by
  rw [Matrix_scan_eq]
  by_cases hskip : throttleSkip tD ((s.divCounter + 1) % U32)
  · rw [if_pos hskip]
  · rw [if_neg hskip]
    exact foldl_stepKey_no_events T Matrix_repeatThreshold f hn
      (scanKeys colsNum rowsNum) _ (fun k2 => h k2)

lemma Matrix_scan_hist_low (colsNum rowsNum T tD : Nat) (f : Nat → Bool)
    (n : Nat) (s : MatrixState) {b : Nat} (hb : b < 4) :
    (Matrix_scan colsNum rowsNum T tD f n s).state.timesPress b = s.timesPress b ∧
    (Matrix_scan colsNum rowsNum T tD f n s).state.timesRelease b = s.timesRelease b := by
  rw [Matrix_scan_eq]
  by_cases hskip : throttleSkip tD ((s.divCounter + 1) % U32)
  · rw [if_pos hskip]; exact ⟨rfl, rfl⟩
  · rw [if_neg hskip]
    exact foldl_stepKey_hist_low T (by norm_num [Matrix_repeatThreshold]) f n
      (scanKeys colsNum rowsNum) _ hb

lemma Matrix_scan_stats_noskip (colsNum rowsNum T tD : Nat) (f : Nat → Bool)
    (n : Nat) (s : MatrixState)
    (hskip : ¬ throttleSkip tD ((s.divCounter + 1) % U32)) :
    (Matrix_scan colsNum rowsNum T tD f n s).state.matrixMaxScans =
      (if n > s.matrixMaxScans then n else s.matrixMaxScans) ∧
    (Matrix_scan colsNum rowsNum T tD f n s).state.matrixCurScans =
      (if n = 0 then 0 else (s.matrixCurScans + 1) % U16) ∧
    (Matrix_scan colsNum rowsNum T tD f n s).state.matrixPrevScans =
      (if n = 0 then s.matrixCurScans else s.matrixPrevScans) := by
  rw [Matrix_scan_eq, if_neg hskip]
  have h := foldl_stepKey_stats T Matrix_repeatThreshold f n (scanKeys colsNum rowsNum)
    ⟨{ s with
        divCounter := (s.divCounter + 1) % U32
        matrixMaxScans := if n > s.matrixMaxScans then n else s.matrixMaxScans
        matrixCurScans := if n = 0 then 0 else (s.matrixCurScans + 1) % U16
        matrixPrevScans := if n = 0 then s.matrixCurScans else s.matrixPrevScans },
      [], 0⟩
  exact ⟨h.2.1, h.2.2.1, h.2.2.2⟩

/-! ### Execution-level properties -/

lemma Matrix_setup_OK (T : Nat) (s : MatrixState) : stateOK (Matrix_setup T s) := by
  intro k
  simp [Matrix_setup, initKeyState, cellOK]

lemma Matrix_setup_counts (T : Nat) (s : MatrixState) :
    ∀ k, ((Matrix_setup T s).scanArray k).activeCount ≤ T ∧
      ((Matrix_setup T s).scanArray k).inactiveCount ≤ T := by
  intro k
  simp [Matrix_setup, initKeyState]

lemma runScans_OK (colsNum rowsNum T tD : Nat)
    (inputs : List (Nat × (Nat → Bool))) {s : MatrixState} (h : stateOK s) :
    stateOK (runScans colsNum rowsNum T tD inputs s).1 := by
  induction inputs generalizing s with
  | nil => exact h
  | cons p rest ih =>
    exact ih (Matrix_scan_OK colsNum rowsNum T tD p.2 p.1 h)

lemma runScans_counts (colsNum rowsNum T tD : Nat)
    (inputs : List (Nat × (Nat → Bool))) {s : MatrixState}
    (h : ∀ k, (s.scanArray k).activeCount ≤ T ∧ (s.scanArray k).inactiveCount ≤ T) :
    ∀ k, (((runScans colsNum rowsNum T tD inputs s).1).scanArray k).activeCount ≤ T ∧
      (((runScans colsNum rowsNum T tD inputs s).1).scanArray k).inactiveCount ≤ T := by
  induction inputs generalizing s with
  | nil => exact h
  | cons p rest ih =>
    exact ih (Matrix_scan_counts colsNum rowsNum T tD p.2 p.1 h)

lemma runScans_events_OK (colsNum rowsNum T tD : Nat)
    (inputs : List (Nat × (Nat → Bool))) {s : MatrixState} (h : stateOK s) :
    ∀ e ∈ (runScans colsNum rowsNum T tD inputs s).2,
      e.2 ≠ KeyPosition.KeyState_Invalid := by
  induction inputs generalizing s with
  | nil => simp [runScans]
  | cons p rest ih =>
    intro e he
    simp only [runScans, List.mem_append] at he
    rcases he with he | he
    · exact Matrix_scan_events_OK colsNum rowsNum T tD p.2 p.1 h e he
    · exact ih (Matrix_scan_OK colsNum rowsNum T tD p.2 p.1 h) e he

lemma runScans_no_events (colsNum rowsNum T tD : Nat)
    (inputs : List (Nat × (Nat → Bool))) {s : MatrixState} (h : stateOK s)
    (hall : ∀ p ∈ inputs, p.1 ≠ 0) :
    (runScans colsNum rowsNum T tD inputs s).2 = [] := by
  induction inputs generalizing s with
  | nil => simp [runScans]
  | cons p rest ih =>
    simp only [runScans]
    rw [Matrix_scan_no_events colsNum rowsNum T tD p.2 (hall p (by simp)) h,
      ih (Matrix_scan_OK colsNum rowsNum T tD p.2 p.1 h) (fun q hq => hall q (by simp [hq]))]
    rfl

lemma runScans_cons (colsNum rowsNum T tD : Nat) (n : Nat) (f : Nat → Bool)
    (rest : List (Nat × (Nat → Bool))) (s : MatrixState) :
    runScans colsNum rowsNum T tD ((n, f) :: rest) s =
      ((runScans colsNum rowsNum T tD rest
          (Matrix_scan colsNum rowsNum T tD f n s).state).1,
        (Matrix_scan colsNum rowsNum T tD f n s).events ++
          (runScans colsNum rowsNum T tD rest
            (Matrix_scan colsNum rowsNum T tD f n s).state).2) := rfl

/-! ### Claim theorems -/

/-- C1: at the state-resolution step (curState Invalid, diff at or above
the repeat threshold), previous Press/Hold resolves to Hold when
activeCount exceeds inactiveCount and otherwise to Release with the
bucket floor(log2(diff)) recorded in the Release histogram and the
last-change tick set to the current divCounter; previous Release/Off
resolves to Press with the Press bucket recorded and the tick set when
activeCount exceeds inactiveCount, and otherwise to Off with no
histogram record and the tick unchanged. -/
theorem c1_state_resolution (dC : Nat) (c : KeyState)
    (hcur : c.curState = KeyPosition.KeyState_Invalid)
    (hth : Matrix_repeatThreshold ≤ diff32 dC c.lastChangeCounter) :
    ((c.prevState = KeyPosition.KeyState_Press ∨
        c.prevState = KeyPosition.KeyState_Hold) →
      (c.activeCount > c.inactiveCount →
        (resolveCell Matrix_repeatThreshold dC c).cell.curState =
          KeyPosition.KeyState_Hold) ∧
      (¬ c.activeCount > c.inactiveCount →
        (resolveCell Matrix_repeatThreshold dC c).cell.curState =
            KeyPosition.KeyState_Release ∧
        (resolveCell Matrix_repeatThreshold dC c).releaseBucket =
          some (Nat.log2 (diff32 dC c.lastChangeCounter)) ∧
        (resolveCell Matrix_repeatThreshold dC c).cell.lastChangeCounter = dC)) ∧
    ((c.prevState = KeyPosition.KeyState_Release ∨
        c.prevState = KeyPosition.KeyState_Off) →
      (c.activeCount > c.inactiveCount →
        (resolveCell Matrix_repeatThreshold dC c).cell.curState =
            KeyPosition.KeyState_Press ∧
        (resolveCell Matrix_repeatThreshold dC c).pressBucket =
          some (Nat.log2 (diff32 dC c.lastChangeCounter)) ∧
        (resolveCell Matrix_repeatThreshold dC c).cell.lastChangeCounter = dC) ∧
      (¬ c.activeCount > c.inactiveCount →
        (resolveCell Matrix_repeatThreshold dC c).cell.curState =
            KeyPosition.KeyState_Off ∧
        (resolveCell Matrix_repeatThreshold dC c).releaseBucket = none ∧
        (resolveCell Matrix_repeatThreshold dC c).pressBucket = none ∧
        (resolveCell Matrix_repeatThreshold dC c).cell.lastChangeCounter =
          c.lastChangeCounter)) := by
  have hlt : ¬ diff32 dC c.lastChangeCounter < Matrix_repeatThreshold := by omega
  have hbucket : Matrix_bucket (diff32 dC c.lastChangeCounter) =
      Nat.log2 (diff32 dC c.lastChangeCounter) :=
    Matrix_bucket_eq_log2
      (by have : (16:Nat) ≤ diff32 dC c.lastChangeCounter := hth; omega)
      (diff32_lt dC c.lastChangeCounter)
  constructor
  · intro hp
    constructor
    · intro hcnt
      rw [resolveCell_hold Matrix_repeatThreshold dC hcur hlt hp hcnt]
    · intro hcnt
      rw [resolveCell_release Matrix_repeatThreshold dC hcur hlt hp hcnt]
      exact ⟨rfl, by rw [hbucket], rfl⟩
  · intro hp
    constructor
    · intro hcnt
      rw [resolveCell_press Matrix_repeatThreshold dC hcur hlt hp hcnt]
      exact ⟨rfl, by rw [hbucket], rfl⟩
    · intro hcnt
      rw [resolveCell_off Matrix_repeatThreshold dC hcur hlt hp hcnt]
      exact ⟨rfl, rfl, rfl, rfl⟩

/-- Witness for C1 at a concrete input: a cell with previous state
Press, counters 0/5 and last change at tick 0, resolved at divCounter
20, goes to Release with bucket log2(20) = 4 and tick 20. -/
theorem c1_state_resolution_witness :
    (resolveCell Matrix_repeatThreshold 20
      ⟨KeyPosition.KeyState_Press, KeyPosition.KeyState_Invalid, 0, 5, 0⟩).cell.curState =
        KeyPosition.KeyState_Release ∧
    (resolveCell Matrix_repeatThreshold 20
      ⟨KeyPosition.KeyState_Press, KeyPosition.KeyState_Invalid, 0, 5, 0⟩).releaseBucket =
        some (Nat.log2 (diff32 20 0)) ∧
    (resolveCell Matrix_repeatThreshold 20
      ⟨KeyPosition.KeyState_Press, KeyPosition.KeyState_Invalid, 0, 5, 0⟩).cell.lastChangeCounter =
        20 := by
  have h := c1_state_resolution 20
    ⟨KeyPosition.KeyState_Press, KeyPosition.KeyState_Invalid, 0, 5, 0⟩ rfl (by decide)
  exact (h.1 (Or.inl rfl)).2 (by decide)

/-- C5: when the cell's curState is Invalid and the tick difference is
below the repeat threshold, the update copies prevState into curState,
records no histogram sample, leaves the last-change tick unchanged and
fires no notify. -/
theorem c5_repeat_suppression (rT dC : Nat) (c : KeyState)
    (hcur : c.curState = KeyPosition.KeyState_Invalid)
    (hlt : diff32 dC c.lastChangeCounter < rT) :
    resolveCell rT dC c =
      ⟨{ c with curState := c.prevState }, none, none, none, false⟩ :=
  resolveCell_suppress rT dC hcur hlt

/-- Witness for C5 at a concrete input: an unresolved Off cell at tick
difference 5 (below the default threshold of 16) is set back to Off
with no side effects. -/
theorem c5_repeat_suppression_witness :
    resolveCell Matrix_repeatThreshold 5
      ⟨KeyPosition.KeyState_Off, KeyPosition.KeyState_Invalid, 1, 2, 0⟩ =
      ⟨⟨KeyPosition.KeyState_Off, KeyPosition.KeyState_Off, 1, 2, 0⟩,
        none, none, none, false⟩ :=
  c5_repeat_suppression Matrix_repeatThreshold 5
    ⟨KeyPosition.KeyState_Off, KeyPosition.KeyState_Invalid, 1, 2, 0⟩ rfl (by decide)

/-- C4 counterexample: a cell that reaches the resolution step with
prevState Invalid does get the diagnostic error, but its curState is
left as Invalid — it is NOT set to the fallback Off the claim states. -/
theorem c4_invalid_prev_counterexample :
    (resolveCell Matrix_repeatThreshold 100
      ⟨KeyPosition.KeyState_Invalid, KeyPosition.KeyState_Invalid, 5, 0, 0⟩).errorReported =
        true ∧
    (resolveCell Matrix_repeatThreshold 100
      ⟨KeyPosition.KeyState_Invalid, KeyPosition.KeyState_Invalid, 5, 0, 0⟩).cell.curState ≠
      KeyPosition.KeyState_Off := by
  decide

/-- C4 amended: when a cell reaches the state-resolution step with
prevState Invalid, the diagnostic error is emitted and the pass
continues without halting, but the cell is left entirely unchanged
(curState stays Invalid rather than being set to Off) and the sink is
notified with the Invalid state. -/
theorem c4_invalid_prev_amended (rT dC : Nat) (c : KeyState)
    (hprev : c.prevState = KeyPosition.KeyState_Invalid)
    (hcur : c.curState = KeyPosition.KeyState_Invalid)
    (hth : rT ≤ diff32 dC c.lastChangeCounter) :
    resolveCell rT dC c =
      ⟨c, none, none, some KeyPosition.KeyState_Invalid, true⟩ :=
  resolveCell_invalid_prev rT dC hcur (by omega) hprev

/-- Witness for the amended C4 at the concrete counterexample input. -/
theorem c4_invalid_prev_amended_witness :
    resolveCell Matrix_repeatThreshold 100
      ⟨KeyPosition.KeyState_Invalid, KeyPosition.KeyState_Invalid, 5, 0, 0⟩ =
      ⟨⟨KeyPosition.KeyState_Invalid, KeyPosition.KeyState_Invalid, 5, 0, 0⟩,
        none, none, some KeyPosition.KeyState_Invalid, true⟩ :=
  c4_invalid_prev_amended Matrix_repeatThreshold 100
    ⟨KeyPosition.KeyState_Invalid, KeyPosition.KeyState_Invalid, 5, 0, 0⟩
    rfl rfl (by decide)

/-- C6 counterexample: the bucket computation applies no clamping; at
delta 0 it yields 255 (the uint8 truncation of 31 - CLZ(0)), not the
claimed bucket 0. -/
theorem c6_bucket_zero_counterexample :
    Matrix_bucket 0 ≠ 0 ∧ Matrix_bucket 0 = 255 := by
  have h : Matrix_bucket 0 = 255 := Matrix_bucket_zero
  exact ⟨by omega, h⟩

/-- C6 amended: for every k in [0,31] a delta of 2^k lands exactly in
bucket k, and for every delta in [1, 2^32) the bucket equals
floor(log2(delta)), which already lies in [0,31] with no clamping
needed; but delta 0 is not clamped to bucket 0 — the computation
yields 255 (such a delta never reaches a histogram increment, since
recording requires diff at or above the repeat threshold). -/
theorem c6_bucket_amended (k d : Nat) (hk : k ≤ 31) (h1 : 1 ≤ d) (h2 : d < U32) :
    Matrix_bucket (2 ^ k) = k ∧
    Matrix_bucket d = Nat.log2 d ∧
    Matrix_bucket d ≤ 31 ∧
    Matrix_bucket 0 = 255 := by
  have hpow : (2:Nat) ^ k < U32 := by
    have h31 : (2:Nat) ^ k ≤ 2 ^ 31 := Nat.pow_le_pow_right (by norm_num) hk
    have : (2:Nat) ^ 31 < 2 ^ 32 := by norm_num
    rw [U32_eq]
    omega
  refine ⟨?_, Matrix_bucket_eq_log2 h1 h2, ?_, Matrix_bucket_zero⟩
  · rw [Matrix_bucket_eq_log2 (Nat.one_le_two_pow) hpow, Nat.log2_two_pow]
  · rw [Matrix_bucket_eq_log2 h1 h2]
    exact log2_le_31 h2

/-- Witness for the amended C6 at k = 31 and delta = 20. -/
theorem c6_bucket_amended_witness :
    Matrix_bucket (2 ^ 31) = 31 ∧
    Matrix_bucket 20 = Nat.log2 20 ∧
    Matrix_bucket 20 ≤ 31 ∧
    Matrix_bucket 0 = 255 :=
  c6_bucket_amended 31 20 (by decide) (by decide) (by decide)

/-- A small concrete scanner state (one key, divCounter 10, stats
counters 5/7/3) used to instantiate witnesses. -/
def sampleState : MatrixState :=
  ⟨10, fun _ => initKeyState 0, fun _ => 0, fun _ => 0, 5, 7, 3⟩

/-- A concrete scanner state with divCounter 11, used for the throttle
witness (the incremented counter 12 has bit 0 clear, so the pass is
skipped). -/
def sampleStateB : MatrixState :=
  ⟨11, fun _ => initKeyState 0, fun _ => 0, fun _ => 0, 5, 7, 3⟩

/-- A concrete all-zero scanner state. -/
def zeroState : MatrixState :=
  ⟨0, fun _ => initKeyState 0, fun _ => 0, fun _ => 0, 0, 0, 0⟩

/-- C3: starting from the state established by Matrix_setup, after any
sequence of Matrix_scan invocations with any sense samples, every
cell's activeCount and inactiveCount are at most the threshold T.
(Quantifying over all input sequences covers every intermediate point;
the counters are naturals and the only decreasing operation is a right
shift, so no underflow below 0 is expressible at all.) -/
theorem c3_counts_bounded (colsNum rowsNum T tD : Nat) (s0 : MatrixState)
    (inputs : List (Nat × (Nat → Bool))) (k : Nat) :
    (((runScans colsNum rowsNum T tD inputs
        (Matrix_setup T s0)).1).scanArray k).activeCount ≤ T ∧
    (((runScans colsNum rowsNum T tD inputs
        (Matrix_setup T s0)).1).scanArray k).inactiveCount ≤ T :=
  runScans_counts colsNum rowsNum T tD inputs (Matrix_setup_counts T s0) k

/-- Witness for C3 at a concrete run: one key, threshold 2, two
all-closed sub-scans from setup. -/
theorem c3_counts_bounded_witness :
    (((runScans 1 1 2 0 [(0, fun _ => true), (1, fun _ => true)]
        (Matrix_setup 2 sampleState)).1).scanArray 0).activeCount ≤ 2 ∧
    (((runScans 1 1 2 0 [(0, fun _ => true), (1, fun _ => true)]
        (Matrix_setup 2 sampleState)).1).scanArray 0).inactiveCount ≤ 2 :=
  c3_counts_bounded 1 1 2 0 sampleState [(0, fun _ => true), (1, fun _ => true)] 0

/-- C2: for every pass — one Matrix_scan invocation with scanNum 0
followed by invocations with nonzero scanNum — started in any state
reachable from Matrix_setup, the sink Macro_keyState fires at most
once for each key, and at the end of the pass the key's curState is
not Invalid. -/
theorem c2_resolution_once_per_pass (colsNum rowsNum T tD : Nat) (s0 : MatrixState)
    (pre : List (Nat × (Nat → Bool))) (f0 : Nat → Bool)
    (rest : List (Nat × (Nat → Bool))) (hrest : ∀ p ∈ rest, p.1 ≠ 0) (k : Nat) :
    (((runScans colsNum rowsNum T tD ((0, f0) :: rest)
        (runScans colsNum rowsNum T tD pre (Matrix_setup T s0)).1).2).map
          Prod.fst).count k ≤ 1 ∧
    ((runScans colsNum rowsNum T tD ((0, f0) :: rest)
        (runScans colsNum rowsNum T tD pre (Matrix_setup T s0)).1).1.scanArray
          k).curState ≠ KeyPosition.KeyState_Invalid := by
  have hOK1 : stateOK (runScans colsNum rowsNum T tD pre (Matrix_setup T s0)).1 :=
    runScans_OK colsNum rowsNum T tD pre (Matrix_setup_OK T s0)
  constructor
  · rw [runScans_cons]
    have hOK2 : stateOK (Matrix_scan colsNum rowsNum T tD f0 0
        (runScans colsNum rowsNum T tD pre (Matrix_setup T s0)).1).state :=
      Matrix_scan_OK colsNum rowsNum T tD f0 0 hOK1
    rw [runScans_no_events colsNum rowsNum T tD rest hOK2 hrest]
    have hsub := Matrix_scan_events_keys colsNum rowsNum T tD f0 0 hOK1
    have hnd := scanKeys_nodup colsNum rowsNum
    calc (((Matrix_scan colsNum rowsNum T tD f0 0
          (runScans colsNum rowsNum T tD pre (Matrix_setup T s0)).1).events ++
            []).map Prod.fst).count k
        = (((Matrix_scan colsNum rowsNum T tD f0 0
          (runScans colsNum rowsNum T tD pre (Matrix_setup T s0)).1).events).map
            Prod.fst).count k := by simp
      _ ≤ (scanKeys colsNum rowsNum).count k := hsub.count_le k
      _ ≤ 1 := List.nodup_iff_count_le_one.1 hnd k
  · have hOKfin : stateOK (runScans colsNum rowsNum T tD ((0, f0) :: rest)
        (runScans colsNum rowsNum T tD pre (Matrix_setup T s0)).1).1 :=
      runScans_OK colsNum rowsNum T tD ((0, f0) :: rest) hOK1
    exact (hOKfin k).2

/-- Witness for C2 at a concrete pass: one key, an empty history and a
single scanNum-0 invocation. -/
theorem c2_resolution_once_per_pass_witness :
    (((runScans 1 1 0 0 [(0, fun _ => false)]
        (runScans 1 1 0 0 [] (Matrix_setup 0 sampleState)).1).2).map
          Prod.fst).count 0 ≤ 1 ∧
    ((runScans 1 1 0 0 [(0, fun _ => false)]
        (runScans 1 1 0 0 [] (Matrix_setup 0 sampleState)).1).1.scanArray
          0).curState ≠ KeyPosition.KeyState_Invalid :=
  c2_resolution_once_per_pass 1 1 0 0 sampleState [] (fun _ => false) []
    (by simp) 0

/-- C8: in every execution from the state established by Matrix_setup,
the sink Macro_keyState is never invoked with KeyState_Invalid. -/
theorem c8_no_invalid_notify (colsNum rowsNum T tD : Nat) (s0 : MatrixState)
    (inputs : List (Nat × (Nat → Bool))) (k : Nat) (st : KeyPosition)
    (hmem : (k, st) ∈ (runScans colsNum rowsNum T tD inputs (Matrix_setup T s0)).2) :
    st ≠ KeyPosition.KeyState_Invalid :=
  runScans_events_OK colsNum rowsNum T tD inputs (Matrix_setup_OK T s0) (k, st) hmem

/-- Witness for C8 at a concrete execution that actually notifies: 16
scanNum-0 invocations from setup resolve the single key to Off once
the repeat threshold is reached. -/
theorem c8_no_invalid_notify_witness :
    (0, KeyPosition.KeyState_Off) ∈
      (runScans 1 1 0 0 (List.replicate 16 (0, fun _ => false))
        (Matrix_setup 0 zeroState)).2 ∧
    KeyPosition.KeyState_Off ≠ KeyPosition.KeyState_Invalid := by
  refine ⟨by decide, c8_no_invalid_notify 1 1 0 0 zeroState
    (List.replicate 16 (0, fun _ => false)) 0 KeyPosition.KeyState_Off (by decide)⟩

/-- C7: every Matrix_scan invocation increments divCounter (mod 2^32);
and with the compile-time throttle divisor set to 1, an invocation
whose incremented counter has bit 0 clear returns immediately after
that increment — the entire remaining state is untouched, no cell is
mutated, no statistic updated and no notify fired — and the skip
condition alternates between consecutive invocations, so every other
invocation is skipped wholesale. -/
theorem c7_throttle_skip (colsNum rowsNum T tD : Nat) (f : Nat → Bool)
    (n : Nat) (s : MatrixState) :
    (Matrix_scan colsNum rowsNum T tD f n s).state.divCounter =
      (s.divCounter + 1) % U32 ∧
    (tD = 1 →
      (throttleSkip 1 ((s.divCounter + 1) % U32) = true →
        Matrix_scan colsNum rowsNum T tD f n s =
          ⟨{ s with divCounter := (s.divCounter + 1) % U32 }, [], 0⟩) ∧
      (throttleSkip 1 ((s.divCounter + 1) % U32) = true ↔
        ¬ throttleSkip 1
          (((Matrix_scan colsNum rowsNum T tD f n s).state.divCounter + 1) % U32) =
            true)) := by
  refine ⟨Matrix_scan_divCounter colsNum rowsNum T tD f n s, ?_⟩
  intro htD
  subst htD
  constructor
  · intro hskip
    rw [Matrix_scan_eq, if_pos hskip]
  · rw [Matrix_scan_divCounter colsNum rowsNum T 1 f n s]
    have hs1 : ∀ x : Nat, throttleSkip 1 x = decide (x % 2 = 0) := by
      intro x
      simp [throttleSkip, Nat.and_one_is_mod]
    rw [hs1, hs1]
    have hdvd : (2:Nat) ∣ U32 := by norm_num [U32]
    have h1 : (s.divCounter + 1) % U32 % 2 = (s.divCounter + 1) % 2 :=
      Nat.mod_mod_of_dvd _ hdvd
    have h2 : ((s.divCounter + 1) % U32 + 1) % U32 % 2 = (s.divCounter + 2) % 2 := by
      rw [Nat.mod_mod_of_dvd _ hdvd, Nat.add_mod, h1, ← Nat.add_mod]
    simp only [decide_eq_true_eq]
    rw [h1, h2]
    omega

/-- Witness for C7 at a concrete state with divCounter 11: the
incremented counter 12 is even, so with divisor 1 the invocation skips
the whole pass, leaving everything but divCounter unchanged. -/
theorem c7_throttle_skip_witness :
    (Matrix_scan 1 1 0 1 (fun _ => false) 3 sampleStateB).state.divCounter = 12 ∧
    Matrix_scan 1 1 0 1 (fun _ => false) 3 sampleStateB =
      ⟨{ sampleStateB with divCounter := 12 }, [], 0⟩ := by
  have h := c7_throttle_skip 1 1 0 1 (fun _ => false) 3 sampleStateB
  exact ⟨h.1, (h.2 rfl).1 (by decide)⟩

/-- C9 counterexample: a non-throttled scanNum-0 invocation on a state
with matrixMaxScans = 5 leaves matrixMaxScans at 5 — it is not reset
at the host-report boundary, contradicting the claim. -/
theorem c9_max_scans_counterexample :
    (Matrix_scan 1 1 0 0 (fun _ => false) 0 sampleState).state.matrixMaxScans = 5 ∧
    (5 : Nat) ≠ 0 := by
  refine ⟨?_, by omega⟩
  decide

/-- C9 amended: on a non-throttled scanNum-0 invocation the running
counters are rotated and reset (matrixPrevScans takes the old
matrixCurScans and matrixCurScans becomes 0), but matrixMaxScans is
NOT reset: it is a running maximum, unchanged at scanNum 0 and cleared
only by Matrix_setup. -/
theorem c9_stats_reset_amended (colsNum rowsNum T tD : Nat) (f : Nat → Bool)
    (s : MatrixState)
    (hskip : ¬ throttleSkip tD ((s.divCounter + 1) % U32) = true) :
    (Matrix_scan colsNum rowsNum T tD f 0 s).state.matrixPrevScans =
      s.matrixCurScans ∧
    (Matrix_scan colsNum rowsNum T tD f 0 s).state.matrixCurScans = 0 ∧
    (Matrix_scan colsNum rowsNum T tD f 0 s).state.matrixMaxScans =
      s.matrixMaxScans ∧
    (Matrix_setup T s).matrixMaxScans = 0 := by
  have h := Matrix_scan_stats_noskip colsNum rowsNum T tD f 0 s hskip
  refine ⟨by simpa using h.2.2, by simpa using h.2.1, ?_, rfl⟩
  have h1 := h.1
  rw [if_neg (by omega)] at h1
  exact h1

/-- Witness for the amended C9 at the concrete counterexample state. -/
theorem c9_stats_reset_amended_witness :
    (Matrix_scan 1 1 0 0 (fun _ => false) 0 sampleState).state.matrixPrevScans = 7 ∧
    (Matrix_scan 1 1 0 0 (fun _ => false) 0 sampleState).state.matrixCurScans = 0 ∧
    (Matrix_scan 1 1 0 0 (fun _ => false) 0 sampleState).state.matrixMaxScans = 5 ∧
    (Matrix_setup 0 sampleState).matrixMaxScans = 0 :=
  c9_stats_reset_amended 1 1 0 0 (fun _ => false) sampleState (by decide)

/-- C10: scanning never touches histogram buckets 0 through 3 — every
histogram increment performed by Matrix_scan (whose repeat threshold
is the default 16) lands in a bucket of index at least 4 = log2(16),
because the repeat-suppression check runs before any recording — and
Matrix_setup zeroes those buckets. -/
theorem c10_low_buckets_constant (colsNum rowsNum T tD : Nat) (f : Nat → Bool)
    (n : Nat) (s : MatrixState) (b : Nat) (hb : b < 4) :
    (Matrix_scan colsNum rowsNum T tD f n s).state.timesPress b = s.timesPress b ∧
    (Matrix_scan colsNum rowsNum T tD f n s).state.timesRelease b = s.timesRelease b ∧
    (Matrix_setup T s).timesPress b = 0 ∧
    (Matrix_setup T s).timesRelease b = 0 := by
  have h := Matrix_scan_hist_low colsNum rowsNum T tD f n s hb
  exact ⟨h.1, h.2, rfl, rfl⟩

/-- Witness for C10 at bucket 3 on a concrete one-key scan. -/
theorem c10_low_buckets_constant_witness :
    (Matrix_scan 1 1 0 0 (fun _ => true) 0 sampleState).state.timesPress 3 =
      sampleState.timesPress 3 ∧
    (Matrix_scan 1 1 0 0 (fun _ => true) 0 sampleState).state.timesRelease 3 =
      sampleState.timesRelease 3 ∧
    (Matrix_setup 0 sampleState).timesPress 3 = 0 ∧
    (Matrix_setup 0 sampleState).timesRelease 3 = 0 :=
  c10_low_buckets_constant 1 1 0 0 (fun _ => true) 0 sampleState 3 (by decide)
